import Mathlib

/-!
# Verification of the `type-guard-map` validation library

A shallow embedding, in Lean 4, of the runtime behavior of the
combinator/`TypeHelper` generation of the `type-guard-map` TypeScript
library (`src/lib.ts`, `src/err-builder.ts`, `src/atomic.ts`), together
with theorems settling the specified properties of its validators.

Runtime values are modelled by the inductive type `Jsv` (the values JSON
decoding can produce, plus the absence marker `undefined`).  A validator
(`TypeHelper`) is, at runtime, exactly its inner check function
`unknown -> Result<void, ErrBuilder>`, modelled as `Check`.
-/

namespace TypeGuardMap

/-- Model of the JavaScript runtime values the library manipulates:
everything JSON decoding can produce (null, booleans, numbers, strings,
arrays, string-keyed objects) plus `undefined`, the absence marker.
Object fields are kept in enumeration (insertion) order, the order
`Object.entries` yields. -/
inductive Jsv where
  | undefined
  | null
  | bool (b : Bool)
  | num (n : Int)
  | str (s : String)
  | arr (xs : List Jsv)
  | obj (fields : List (String × Jsv))

/-- Model of the JavaScript `typeof` operator on `Jsv` values
(`typeof null` is `"object"`, and arrays are objects). -/
def typeofJs : Jsv → String
  | .undefined => "undefined"
  | .null => "object"
  | .bool _ => "boolean"
  | .num _ => "number"
  | .str _ => "string"
  | .arr _ => "object"
  | .obj _ => "object"

/-- Whether the value is exactly `null` (JavaScript `v === null`). -/
def isNullJs : Jsv → Bool
  | .null => true
  | _ => false

/-- Source function `isPartialUnknown` from `lib.ts`:
`typeof v === "object" && v !== null`.  Arrays qualify. -/
def isPartialUnknown (v : Jsv) : Bool :=
  typeofJs v == "object" && !isNullJs v

/-- JSON string escaping for the two characters that must be escaped in
the values this model stringifies. -/
def escapeChar (c : Char) : String :=
  if c = '"' ∨ c = '\\' then String.push "\\" c else String.singleton c

/-- Rendering of `JSON.stringify` on a string value (quote and escape). -/
def jsonQuote (s : String) : String :=
  "\"" ++ String.join (s.toList.map escapeChar) ++ "\""

mutual
/-- Model of `JSON.stringify`: `none` models the JavaScript `undefined`
result (stringifying `undefined` itself).  Inside arrays an `undefined`
element renders as `null`; inside objects the field is dropped. -/
def jsonStringify : Jsv → Option String
  | .undefined => none
  | .null => some "null"
  | .bool b => some (if b then "true" else "false")
  | .num n => some (toString n)
  | .str s => some (jsonQuote s)
  | .arr xs => some ("[" ++ String.intercalate "," (jsonStringifyList xs) ++ "]")
  | .obj fs => some ("\x7b" ++ String.intercalate "," (jsonStringifyFields fs) ++ "\x7d")

/-- Rendering of the elements of an array under `JSON.stringify`. -/
def jsonStringifyList : List Jsv → List String
  | [] => []
  | x :: xs => ((jsonStringify x).getD "null") :: jsonStringifyList xs

/-- Rendering of the fields of an object under `JSON.stringify`. -/
def jsonStringifyFields : List (String × Jsv) → List String
  | [] => []
  | (k, v) :: fs =>
    match jsonStringify v with
    | some s => (jsonQuote k ++ ":" ++ s) :: jsonStringifyFields fs
    | none => jsonStringifyFields fs
end

/-- Rendering of `JSON.stringify(v)` inside a template literal:
a `undefined` result is coerced to the text `"undefined"`. -/
def jsonStringifyText (v : Jsv) : String :=
  (jsonStringify v).getD "undefined"

/-- One path segment of an error location: a field name or an index
(`errIn(key: string | number)` in `err-builder.ts`). -/
inductive Seg where
  | key (s : String)
  | idx (n : Nat)
deriving DecidableEq

/-- How a segment renders inside `stackRev.join(".")` (JavaScript `join`
coerces numbers to their decimal text). -/
def Seg.render : Seg → String
  | .key s => s
  | .idx n => toString n

/-- `ErrBuilderImpl` from `err-builder.ts`: a message fixed at creation
plus the stack of location segments, innermost first (`stackRev`). -/
structure ErrBuilder where
  message : String
  stackRev : List Seg
deriving DecidableEq

/-- Constructor `new ErrBuilderImpl(message)`: empty segment stack. -/
def mkErrBuilder (m : String) : ErrBuilder := ⟨m, []⟩

/-- Source method `errIn(key)`: pushes one segment onto `stackRev` and returns the
builder itself (modelled functionally: the returned builder is the
updated state of the same object). -/
def ErrBuilder.errIn (e : ErrBuilder) (s : Seg) : ErrBuilder :=
  ⟨e.message, e.stackRev ++ [s]⟩

/-- Model of `stackRev.join(".")` after segment-to-string coercion. -/
def joinSegs (l : List Seg) : String :=
  String.intercalate "." (l.map Seg.render)

/-- Source method `asFullMessage()` from `err-builder.ts`.  The source reverses
`stackRev` **in place** (`this.stackRev.reverse()`), so the call both
returns a string and changes the builder's state; we model it by
returning the rendered message together with the builder's state after
the call. -/
def ErrBuilder.asFullMessage (e : ErrBuilder) : String × ErrBuilder :=
  if e.stackRev.isEmpty then (e.message, e)
  else ("in " ++ joinSegs e.stackRev.reverse ++ ": " ++ e.message,
        ⟨e.message, e.stackRev.reverse⟩)

/-- The message produced by the *first* rendering of a builder
(`toError().message`).  During one validation call every builder is
rendered at most once, so this is the message validation reports. -/
def ErrBuilder.render (e : ErrBuilder) : String :=
  e.asFullMessage.1

/-- The check function a `TypeHelper` wraps:
`(v: unknown) => Result<void, ErrBuilder>`. -/
def Check : Type := Jsv → Except ErrBuilder Unit

/-- Source function `leafErr(message)` from `err-builder.ts`. -/
def leafErr (m : String) : Except ErrBuilder Unit :=
  .error (mkErrBuilder m)

/-- Source function `leafExpect(expectStr, v)` from `err-builder.ts`:
``leafErr(`Expected ${expectStr}, got ${JSON.stringify(v)}`)``. -/
def leafExpect (expectStr : String) (v : Jsv) : Except ErrBuilder Unit :=
  leafErr ("Expected " ++ expectStr ++ ", got " ++ jsonStringifyText v)

/-- Boolean success test on a check result (`Result.isOk()`). -/
def resultIsOk {ε α : Type} : Except ε α → Bool
  | .ok _ => true
  | .error _ => false

/-- Boolean failure test on a result (`Result.isErr()`). -/
def resultIsErr {ε α : Type} : Except ε α → Bool
  | .ok _ => false
  | .error _ => true

/-- Source method `TypeHelperImpl.validateBase`: run the inner guard; on success the
input value itself is returned, reinterpreted as `T`
(`this.innerGuard(v).map(() => v as T)`). -/
def validateBase (h : Check) (v : Jsv) : Except ErrBuilder Jsv :=
  (h v).map (fun _ => v)

/-- Source method `TypeHelperImpl.validate`: `validateBase(v).mapErr((e) => e.toError())`;
the error is rendered to its final message string. -/
def validate (h : Check) (v : Jsv) : Except String Jsv :=
  (validateBase h v).mapError ErrBuilder.render

/-- Source method `TypeHelperImpl.guard`: true iff `validateBase` succeeds. -/
def guard (h : Check) (v : Jsv) : Bool :=
  resultIsOk (validateBase h v)

/-- Source function `atomic(name)` from `atomic.ts` / `mod_new.ts`:
succeed iff `typeof v` equals the atomic type name, else
`leafExpect(name, v)`. -/
def atomic (name : String) : Check := fun v =>
  if typeofJs v = name then .ok () else leafExpect name v

/-- JavaScript strict equality `===` restricted to the primitive values
`literal` accepts as candidates (string / number / boolean / null /
undefined); an object or array is never strictly equal to any of them. -/
def jsStrictEqLit : Jsv → Jsv → Bool
  | .undefined, .undefined => true
  | .null, .null => true
  | .bool a, .bool b => a == b
  | .num a, .num b => a == b
  | .str a, .str b => a == b
  | _, _ => false

/-- Source function `literal(...args)` from `atomic.ts`: succeed iff the value is
strictly equal to one of the candidates; otherwise
`leafExpect("one of <candidates>", v)` with candidates rendered via
`JSON.stringify` in declaration order. -/
def literal (args : List Jsv) : Check := fun v =>
  if args.any (fun arg => jsStrictEqLit v arg) then .ok ()
  else leafExpect ("one of " ++
    String.intercalate ", " (args.map jsonStringifyText)) v

/-- Source method `TypeHelperImpl.or`: try self's guard; on success succeed without
consulting `other`; else try `other.validateBase`; if both fail, build a
fresh leaf error combining the two *rendered* messages
(`` leafErr(`(${resT.e.toError().message}) and (${resU.e.toError().message})`) ``). -/
def orHelper (a b : Check) : Check := fun v =>
  match a v with
  | .ok _ => .ok ()
  | .error eT =>
    match b v with
    | .ok _ => .ok ()
    | .error eU =>
      leafErr ("(" ++ eT.render ++ ") and (" ++ eU.render ++ ")")

/-- Source method `TypeHelperImpl.and`: self first; its failure is returned
immediately; otherwise other's failure, if any; else success. -/
def andHelper (a b : Check) : Check := fun v =>
  match a v with
  | .error e => .error e
  | .ok _ =>
    match b v with
    | .error e => .error e
    | .ok _ => .ok ()

/-- Source method `TypeHelperImpl.merge`: the body is identical to `and`'s at runtime
(the two differ only in the static type produced). -/
def mergeHelper (a b : Check) : Check := fun v =>
  match a v with
  | .error e => .error e
  | .ok _ =>
    match b v with
    | .error e => .error e
    | .ok _ => .ok ()

/-- Source method `TypeHelperImpl.cond`: `this.validateBase(v).andThen(f)` — self's
check first, then on success the refinement, whose failure is returned
unchanged (no path segment appended). -/
def condHelper (a : Check) (f : Jsv → Except ErrBuilder Unit) : Check := fun v =>
  (validateBase a v).bind f

/-- The element loop of `TypeHelperImpl.arr`, indices ascending from
`i`; a failing element's error gets `errIn(id)` appended. -/
def arrAux (a : Check) : List Jsv → Nat → Except ErrBuilder Unit
  | [], _ => .ok ()
  | x :: xs, i =>
    match a x with
    | .error e => .error (e.errIn (.idx i))
    | .ok _ => arrAux a xs (i + 1)

/-- Source method `TypeHelperImpl.arr`: non-arrays fail with `leafErr("Expected array")`;
elements are checked in ascending index order, first failure propagates
with the index appended. -/
def arrHelper (a : Check) : Check := fun v =>
  match v with
  | .arr xs => arrAux a xs 0
  | _ => leafErr "Expected array"

/-- Result of `Object.entries` on an array: index keys (in ascending order,
starting at `i`) paired with the elements. -/
def arrEntriesFrom (i : Nat) : List Jsv → List (String × Jsv)
  | [] => []
  | x :: xs => (toString i, x) :: arrEntriesFrom (i + 1) xs

/-- Model of `Object.entries(v)` for the non-null objects `rec` can
reach: an object's own fields in enumeration order, an array's index
keys paired with its elements. -/
def jsEntries : Jsv → List (String × Jsv)
  | .obj fs => fs
  | .arr xs => arrEntriesFrom 0 xs
  | _ => []

/-- The entry loop of `TypeHelperImpl.rec`: each value checked, first
failure propagates with `errIn(key)` appended. -/
def recAux (a : Check) : List (String × Jsv) → Except ErrBuilder Unit
  | [] => .ok ()
  | (k, x) :: rest =>
    match a x with
    | .error e => .error (e.errIn (.key k))
    | .ok _ => recAux a rest

/-- Source method `TypeHelperImpl.rec`: fail with `leafErr("Expected object")`
when `typeof v !== "object" || v === null`; otherwise check every
enumerable own entry's value. -/
def recHelper (a : Check) : Check := fun v =>
  if typeofJs v ≠ "object" ∨ isNullJs v = true then leafErr "Expected object"
  else recAux a (jsEntries v)

/-- Canonical array index: property access `v[k]` on an array hits an
element exactly when `k` is the decimal text of a valid index. -/
def canonicalIndex (k : String) : Option Nat :=
  match k.toNat? with
  | some n => if toString n = k then some n else none
  | none => none

/-- Model of JavaScript property read `v[key]` (with a string key) on
the values `struct` can reach: object field lookup, array index /
`length` access; an absent key yields `undefined`. -/
def jsGet (v : Jsv) (k : String) : Jsv :=
  match v with
  | .obj fs => (List.lookup k fs).getD .undefined
  | .arr xs =>
    if k = "length" then .num xs.length
    else
      match canonicalIndex k with
      | some i => (xs.get? i).getD .undefined
      | none => .undefined
  | _ => .undefined

/-- The field loop of `struct` (`lib.ts`): for each declared field, in
`Object.entries(fields)` order, validate `v[key]`; on the first failure
push the field name (`result.e.errIn(key)`) and return that error. -/
def structAux (fields : List (String × Check)) (v : Jsv) : Except ErrBuilder Unit :=
  match fields with
  | [] => .ok ()
  | (k, h) :: rest =>
    match h (jsGet v k) with
    | .error e => .error (e.errIn (.key k))
    | .ok _ => structAux rest v

/-- Source function `struct(fields)` from `lib.ts`: inputs failing `isPartialUnknown`
fail with `leafExpect("struct", v)`; otherwise the declared fields are
checked in declaration order. -/
def structHelper (fields : List (String × Check)) : Check := fun v =>
  if isPartialUnknown v then structAux fields v
  else leafExpect "struct" v

/-- The position loop of `tuple` (`lib.ts`), positions ascending from
`i`, paired with the corresponding helpers; a failing position's error
gets `errIn(i)` appended. -/
def tupleAux : List Check → List Jsv → Nat → Except ErrBuilder Unit
  | [], _, _ => .ok ()
  | _, [], _ => .ok ()
  | h :: hs, x :: xs, i =>
    match h x with
    | .error e => .error (e.errIn (.idx i))
    | .ok _ => tupleAux hs xs (i + 1)

/-- Source function `tuple(...helpers)` from `lib.ts`: non-arrays fail with
`leafExpect("tuple", v)`; arrays of the wrong length fail with
`` leafErr(`tuple length ${helpers.length}, got ${v.length}`) `` and no
path segment; otherwise each position is validated in ascending order. -/
def tupleHelper (hs : List Check) : Check := fun v =>
  match v with
  | .arr xs =>
    if xs.length ≠ hs.length then
      leafErr ("tuple length " ++ toString hs.length ++ ", got " ++ toString xs.length)
    else tupleAux hs xs 0
  | _ => leafExpect "tuple" v

/-- An object reference: a runtime value together with its heap
identity.  Two references with different `addr` are distinct objects
even when structurally equal; mutating through one does not affect the
other. -/
structure ObjRef where
  value : Jsv
  addr : Nat

/-- Source method `TypeHelperImpl.parse`: decode the text
(`wrapFn(JSON.parse)(text)`), then validate the decoded value
(`.andThen((v) => this.validate(v))`).  JSON decoding is external to the
library (an opaque collaborator), so the decoder is a parameter. -/
def parse (decode : String → Except String Jsv) (h : Check) (text : String) :
    Except String Jsv :=
  match decode text with
  | .error e => .error e
  | .ok v => validate h v

/-- Source method `TypeHelperImpl.parseWithDefault`:
`this.parse(text).unwrapOr(defaultValue)`.  The external `unwrapOr`
returns the `Ok` payload — a value freshly allocated by the decoder,
here given the fresh address `freshAddr` — or, on `Err`, the
`defaultValue` argument itself, the very same reference (no copy is
made anywhere on this path). -/
def parseWithDefault (decode : String → Except String Jsv) (h : Check)
    (text : String) (defaultValue : ObjRef) (freshAddr : Nat) : ObjRef :=
  match parse decode h text with
  | .ok v => ⟨v, freshAddr⟩
  | .error _ => defaultValue

/-- Being a fresh deep copy of a reference: structurally equal to it but
a different object. -/
def isFreshDeepCopy (r d : ObjRef) : Prop :=
  r.value = d.value ∧ r.addr ≠ d.addr

/-- Concrete decoder for the closed instances below: it models
`JSON.parse` on exactly the inputs those instances feed it (the text
`'"hello"'` decodes to the string value `"hello"`; the other texts used
are malformed and make `JSON.parse` throw). -/
def cDecode : String → Except String Jsv := fun s =>
  if s = "\"hello\"" then .ok (.str "hello")
  else .error "SyntaxError: Unexpected token"

/-- Concrete default object used in the closed instances below, at
address 0. -/
def cDefault : ObjRef := ⟨.obj [("a", .num 1)], 0⟩

/-! ## General lemmas -/

theorem validate_isOk (h : Check) (v : Jsv) :
    resultIsOk (validate h v) = resultIsOk (h v) := by
  cases hv : h v with
  | ok u => cases u; simp [validate, validateBase, hv, Except.map, Except.mapError, resultIsOk]
  | error e => simp [validate, validateBase, hv, Except.map, Except.mapError, resultIsOk]

theorem resultIsOk_ok {ε α : Type} (a : α) : resultIsOk (ε := ε) (.ok a) = true := rfl

theorem resultIsOk_error {ε α : Type} (e : ε) :
    resultIsOk (ε := ε) (α := α) (.error e) = false := rfl

theorem errIn_foldl (m : String) (acc segs : List Seg) :
    segs.foldl ErrBuilder.errIn ⟨m, acc⟩ = ⟨m, acc ++ segs⟩ := by
  induction segs generalizing acc with
  | nil => simp
  | cons s rest ih => simp [ErrBuilder.errIn, ih]

/-! ## C6: rendering of an `ErrBuilder` -/

/-- **C6**: an `ErrBuilder` created with message `m` and then given the
segments `s1, ..., sk` via `errIn` calls (innermost first) renders to
the bare message when `k = 0`, and otherwise to `"in "` followed by the
segments joined by `"."` in reverse order of appending (outermost
container first), followed by `": "` and the message. -/
theorem errBuilder_render_spec (m : String) (segs : List Seg) :
    ((segs.foldl ErrBuilder.errIn (mkErrBuilder m)).asFullMessage).1 =
      if segs.isEmpty then m
      else "in " ++ joinSegs segs.reverse ++ ": " ++ m := by
  rw [mkErrBuilder, errIn_foldl]
  cases segs <;> simp [ErrBuilder.asFullMessage]

/-! ## C9: rendering is destructive -/

/-- **C9**: `asFullMessage` reverses the builder's segment stack in
place, so with at least two segments held, the first call joins the
segments in reversed stack order while a second call on the resulting
state joins them in the original stack order — the opposite order from
the first call.  Rendering is therefore not a pure function of the
builder's construction history. -/
theorem asFullMessage_destructive (b : ErrBuilder) (h2 : 2 ≤ b.stackRev.length) :
    b.asFullMessage.1 = "in " ++ joinSegs b.stackRev.reverse ++ ": " ++ b.message ∧
    (b.asFullMessage.2).asFullMessage.1 = "in " ++ joinSegs b.stackRev ++ ": " ++ b.message := by
  obtain ⟨msg, l⟩ := b
  have hne : l.isEmpty = false := by
    cases l with
    | nil => simp at h2
    | cons a t => simp
  have hne2 : l.reverse.isEmpty = false := by
    cases l with
    | nil => simp at h2
    | cons a t => simp
  constructor
  · simp [ErrBuilder.asFullMessage, hne]
  · simp [ErrBuilder.asFullMessage, hne, hne2]

/-- Witness for C9 at a concrete builder holding the segments `a` (inner)
and `b` (outer): the first rendering is `"in b.a: msg"`, the second is
`"in a.b: msg"`. -/
theorem asFullMessage_destructive_witness :
    (ErrBuilder.asFullMessage ⟨"msg", [Seg.key "a", Seg.key "b"]⟩).1 = "in b.a: msg" ∧
    ((ErrBuilder.asFullMessage ⟨"msg", [Seg.key "a", Seg.key "b"]⟩).2).asFullMessage.1 =
      "in a.b: msg" :=
  ⟨((asFullMessage_destructive ⟨"msg", [Seg.key "a", Seg.key "b"]⟩ (by decide)).1).trans (by decide),
   ((asFullMessage_destructive ⟨"msg", [Seg.key "a", Seg.key "b"]⟩ (by decide)).2).trans (by decide)⟩

/-! ## C4: the union combinator `or` -/

/-- **C4**: `A.or(B)` succeeds iff `A`'s check or `B`'s check succeeds,
`A` tried first and `B` not consulted when `A` succeeds; when both fail
the resulting error is a fresh leaf error whose message combines the two
rendered messages as `"(<A>) and (<B>)"`, with no path segment of its
own. -/
theorem or_spec (a b : Check) (v : Jsv) :
    (resultIsOk (orHelper a b v) = true ↔
      resultIsOk (a v) = true ∨ resultIsOk (b v) = true) ∧
    (a v = .ok () → ∀ b2 : Check, orHelper a b2 v = .ok ()) ∧
    (∀ eA eB, a v = .error eA → b v = .error eB →
      orHelper a b v = .error ⟨"(" ++ eA.render ++ ") and (" ++ eB.render ++ ")", []⟩) := by
  cases ha : a v with
  | ok u =>
    cases u
    refine ⟨?_, ?_, ?_⟩
    · simp [orHelper, ha, resultIsOk]
    · intro _ b2; simp [orHelper, ha]
    · intro eA eB hA; exact absurd hA (by simp)
  | error eT =>
    cases hb : b v with
    | ok u =>
      cases u
      refine ⟨?_, ?_, ?_⟩
      · simp [orHelper, ha, hb, resultIsOk]
      · intro hA; exact absurd hA (by simp)
      · intro eA eB _ hB; exact absurd hB (by simp)
    | error eU =>
      refine ⟨?_, ?_, ?_⟩
      · simp [orHelper, ha, hb, resultIsOk, leafErr, mkErrBuilder]
      · intro hA; exact absurd hA (by simp)
      · intro eA eB hA hB
        cases hA; cases hB
        simp [orHelper, ha, hb, leafErr, mkErrBuilder]

/-- Witness for C4: both atomic checks fail on `true`, and the union
reports the combined message with an empty segment stack. -/
theorem or_spec_witness :
    orHelper (atomic "string") (atomic "number") (.bool true) =
      .error ⟨"(Expected string, got true) and (Expected number, got true)", []⟩ :=
  (or_spec (atomic "string") (atomic "number") (.bool true)).2.2
    (mkErrBuilder "Expected string, got true") (mkErrBuilder "Expected number, got true")
    rfl rfl

/-! ## C5: the refinement combinator `cond` -/

/-- **C5**: `H.cond(f)` runs `H`'s check first, and only on success runs
`f` on the value; a failure of `H` is returned unchanged whatever `f`
is, and a failure of `f` is returned as is, with no path segment
appended by `cond` itself. -/
theorem cond_spec (a : Check) (f : Jsv → Except ErrBuilder Unit) (v : Jsv) :
    (∀ e, a v = .error e → ∀ f2, condHelper a f2 v = .error e) ∧
    (a v = .ok () → condHelper a f v = f v) := by
  constructor
  · intro e he f2
    simp [condHelper, validateBase, he, Except.map, Except.bind]
  · intro h
    simp [condHelper, validateBase, h, Except.map, Except.bind]

/-- Field validator for one chat message, from the spec's example:
`struct({role: literal("user","assistant","system"), content: DString})`. -/
def dMessage : Check :=
  structHelper [("role", literal [.str "user", .str "assistant", .str "system"]),
                ("content", atomic "string")]

/-- Refinement from the spec's example:
`v => v.length === 0 ? leafErr("Messages should not be empty") : fin()`. -/
def messagesNonempty : Jsv → Except ErrBuilder Unit := fun v =>
  match v with
  | .arr xs => if xs.isEmpty then leafErr "Messages should not be empty" else .ok ()
  | _ => .ok ()

/-- Chat-request validator from the spec's example:
`struct({model: DString, messages: array(dMessage).cond(...)})`. -/
def dChatRequest : Check :=
  structHelper [("model", atomic "string"),
                ("messages", condHelper (arrHelper dMessage) messagesNonempty)]

/-- Witness for C5: on an empty message array the array check succeeds,
`cond` hands the value to the refinement unchanged, and inside the
enclosing struct the failure renders as
`"in messages: Messages should not be empty"`. -/
theorem cond_spec_witness :
    condHelper (arrHelper dMessage) messagesNonempty (.arr []) =
      messagesNonempty (.arr []) ∧
    validate dChatRequest (.obj [("model", .str "m"), ("messages", .arr [])]) =
      .error "in messages: Messages should not be empty" :=
  ⟨(cond_spec (arrHelper dMessage) messagesNonempty (.arr [])).2 rfl, rfl⟩

/-! ## C7: `and` and `merge` coincide at runtime -/

/-- **C7**: `A.merge(B)` and `A.and(B)` are the same runtime function:
both check `A` first and return `A`'s failure without consulting `B`,
otherwise return `B`'s failure if `B` fails, and succeed exactly when
both succeed.  The two combinators differ only in the static type they
present. -/
theorem merge_and_spec :
    mergeHelper = andHelper ∧
    ∀ (a b : Check) (v : Jsv),
      (∀ e, a v = .error e → ∀ b2 : Check,
        andHelper a b2 v = .error e ∧ mergeHelper a b2 v = .error e) ∧
      (∀ e, a v = .ok () → b v = .error e → andHelper a b v = .error e) ∧
      (a v = .ok () → b v = .ok () → andHelper a b v = .ok ()) ∧
      (resultIsOk (andHelper a b v) = true ↔
        resultIsOk (a v) = true ∧ resultIsOk (b v) = true) := by
  refine ⟨rfl, ?_⟩
  intro a b v
  refine ⟨?_, ?_, ?_, ?_⟩
  · intro e he b2
    exact ⟨by simp [andHelper, he], by simp [mergeHelper, he]⟩
  · intro e ha hb
    simp [andHelper, ha, hb]
  · intro ha hb
    simp [andHelper, ha, hb]
  · cases ha : a v with
    | error e => simp [andHelper, ha, resultIsOk]
    | ok u =>
      cases u
      cases hb : b v with
      | error e => simp [andHelper, ha, hb, resultIsOk]
      | ok u => cases u; simp [andHelper, ha, hb, resultIsOk]

/-- Witness for C7: at a concrete intersection, `merge` and `and` return
the same result, namely the second validator's failure. -/
theorem merge_and_spec_witness :
    andHelper (atomic "string") (atomic "number") (.str "a") =
      mergeHelper (atomic "string") (atomic "number") (.str "a") ∧
    andHelper (atomic "string") (atomic "number") (.str "a") =
      .error (mkErrBuilder "Expected number, got \"a\"") :=
  ⟨by rw [merge_and_spec.1],
   (merge_and_spec.2 (atomic "string") (atomic "number") (.str "a")).2.1
     (mkErrBuilder "Expected number, got \"a\"") rfl rfl⟩

/-! ## C8: validation returns the input itself and is idempotent -/

/-- **C8**: whenever `H.validate(v)` succeeds, the `Ok` payload is the
input `v` itself, unchanged; hence validation is idempotent — feeding
the unwrapped success value back into `H.validate` succeeds again with
an equal value. -/
theorem validate_identity_idempotent (h : Check) (v w : Jsv)
    (hok : validate h v = .ok w) : w = v ∧ validate h w = .ok w := by
  cases hv : h v with
  | error e =>
    simp [validate, validateBase, hv, Except.map, Except.mapError] at hok
  | ok u =>
    cases u
    simp only [validate, validateBase, hv, Except.map, Except.mapError] at hok
    have hw : w = v := by
      cases hok
      rfl
    subst hw
    exact ⟨rfl, by simp [validate, validateBase, hv, Except.map, Except.mapError]⟩

/-- Witness for C8 at a concrete success. -/
theorem validate_identity_witness :
    Jsv.num 3 = Jsv.num 3 ∧ validate (atomic "number") (Jsv.num 3) = .ok (.num 3) :=
  validate_identity_idempotent (atomic "number") (.num 3) (.num 3) rfl

/-! ## C10: the record combinator accepts arrays -/

/-- If every element of the list passes the check, the entry loop of
`rec` succeeds on the array's index-keyed entries. -/
theorem recAux_entries_ok (a : Check) (xs : List Jsv) (i : Nat)
    (h : ∀ x ∈ xs, a x = .ok ()) :
    recAux a (arrEntriesFrom i xs) = .ok () := by
  induction xs generalizing i with
  | nil => rfl
  | cons x rest ih =>
    have hx : a x = .ok () := h x (by simp)
    simp only [arrEntriesFrom, recAux, hx]
    exact ih (i + 1) (fun y hy => h y (by simp [hy]))

/-- **C10**: `H.rec()` accepts array inputs: an array every element of
which passes `H`'s check satisfies `H.rec().guard`, because the
container test only requires a non-null `typeof "object"` value (arrays
qualify) and the loop runs over the enumerable own entries — index keys
for arrays. -/
theorem rec_accepts_arrays (a : Check) (xs : List Jsv)
    (h : ∀ x ∈ xs, a x = .ok ()) :
    guard (recHelper a) (.arr xs) = true := by
  have hrec : recHelper a (.arr xs) = .ok () := by
    simp only [recHelper, typeofJs, isNullJs, jsEntries]
    rw [if_neg (by simp)]
    exact recAux_entries_ok a xs 0 h
  simp [guard, validateBase, hrec, Except.map, resultIsOk]

/-- Witness for C10: an array of numbers passes `DNumber.rec()`. -/
theorem rec_accepts_arrays_witness :
    guard (recHelper (atomic "number")) (.arr [.num 1, .num 2]) = true :=
  rec_accepts_arrays (atomic "number") [.num 1, .num 2]
    (by intro x hx; fin_cases hx <;> rfl)

/-! ## C2: the `struct` combinator -/

/-- The field loop succeeds iff every declared field's value passes its
validator. -/
theorem structAux_ok_iff (F : List (String × Check)) (v : Jsv) :
    resultIsOk (structAux F v) = true ↔
      ∀ kh ∈ F, resultIsOk (kh.2 (jsGet v kh.1)) = true := by
  induction F with
  | nil => simp [structAux, resultIsOk_ok]
  | cons kh rest ih =>
    obtain ⟨k, h⟩ := kh
    cases hh : h (jsGet v k) with
    | error e => simp [structAux, hh, resultIsOk_error, List.forall_mem_cons]
    | ok u =>
      cases u
      simp only [structAux, hh, List.forall_mem_cons]
      rw [ih]
      simp [hh, resultIsOk_ok]

/-- When every field before `(k, h)` passes and `h` fails on `v[k]`, the
field loop reports `h`'s error with the field name appended, the later
fields unconsulted. -/
theorem structAux_prefix_fail (pre : List (String × Check)) (k : String) (h : Check)
    (post : List (String × Check)) (v : Jsv) (e : ErrBuilder)
    (hpre : ∀ p ∈ pre, resultIsOk (p.2 (jsGet v p.1)) = true)
    (hk : h (jsGet v k) = .error e) :
    structAux (pre ++ (k, h) :: post) v = .error (e.errIn (.key k)) := by
  induction pre with
  | nil => simp [structAux, hk]
  | cons p rest ih =>
    obtain ⟨k0, h0⟩ := p
    have h0ok : resultIsOk (h0 (jsGet v k0)) = true := hpre (k0, h0) (by simp)
    cases hh : h0 (jsGet v k0) with
    | error e0 => rw [hh] at h0ok; simp [resultIsOk] at h0ok
    | ok u =>
      cases u
      simp only [List.cons_append, structAux, hh]
      exact ih (fun p hp => hpre p (by simp [hp]))

/-- **C2**: `struct(F).validate(v)` succeeds exactly when `v` is a
non-null object (arrays qualify) and every declared field's value in
`v` — `undefined` when the key is absent — passes that field's check;
undeclared keys of `v` are never consulted, and the first failing field
(in declaration order) propagates its error with the field name
appended as a path segment, the later fields unchecked. -/
theorem struct_spec (F : List (String × Check)) (v : Jsv) :
    (resultIsOk (validate (structHelper F) v) = true ↔
      isPartialUnknown v = true ∧
        ∀ kh ∈ F, resultIsOk (kh.2 (jsGet v kh.1)) = true) ∧
    (∀ xs : List Jsv, isPartialUnknown (.arr xs) = true) ∧
    (∀ fs k, List.lookup k fs = none → jsGet (.obj fs) k = .undefined) ∧
    (∀ pre k h post e,
      F = pre ++ (k, h) :: post →
      isPartialUnknown v = true →
      (∀ p ∈ pre, resultIsOk (p.2 (jsGet v p.1)) = true) →
      h (jsGet v k) = .error e →
      structHelper F v = .error (e.errIn (.key k))) := by
  refine ⟨?_, ?_, ?_, ?_⟩
  · rw [validate_isOk]
    cases hp : isPartialUnknown v with
    | true => simp [structHelper, hp, structAux_ok_iff]
    | false => simp [structHelper, hp, leafExpect, leafErr, mkErrBuilder, resultIsOk]
  · intro xs; rfl
  · intro fs k hlk; simp [jsGet, hlk]
  · intro pre k h post e hF hp hpre hk
    subst hF
    simp only [structHelper, hp, if_true]
    exact structAux_prefix_fail pre k h post v e hpre hk

/-- Witness for C2: a struct of two fields applied to an object whose
second field is a string instead of a number and which carries an extra
undeclared key; the failure is the second field's error with the field
name appended. -/
theorem struct_spec_witness :
    structHelper [("name", atomic "string"), ("age", atomic "number")]
      (.obj [("name", .str "Alice"), ("age", .str "20"), ("extra", .bool true)]) =
      .error ⟨"Expected number, got \"20\"", [.key "age"]⟩ :=
  (struct_spec [("name", atomic "string"), ("age", atomic "number")]
      (.obj [("name", .str "Alice"), ("age", .str "20"), ("extra", .bool true)])).2.2.2
    [("name", atomic "string")] "age" (atomic "number") []
    (mkErrBuilder "Expected number, got \"20\"") rfl rfl
    (by intro p hp; fin_cases hp; rfl) rfl

/-! ## C3: the `tuple` combinator -/

/-- Skipping a passing prefix of positions shifts the loop's index by
the prefix length. -/
theorem tupleAux_skip (pre : List Check) (xpre : List Jsv) (rest : List Check)
    (xrest : List Jsv) (i : Nat) (hlen : pre.length = xpre.length)
    (hok : ∀ p ∈ pre.zip xpre, p.1 p.2 = .ok ()) :
    tupleAux (pre ++ rest) (xpre ++ xrest) i = tupleAux rest xrest (i + pre.length) := by
  induction pre generalizing xpre i with
  | nil =>
    cases xpre with
    | nil => simp
    | cons _ _ => simp at hlen
  | cons h hs ih =>
    cases xpre with
    | nil => simp at hlen
    | cons x xs =>
      have hx : h x = .ok () := hok (h, x) (by simp)
      have hidx : i + (h :: hs).length = i + 1 + hs.length := by
        simp only [List.length_cons]
        omega
      simp only [List.cons_append, tupleAux, hx, List.append_eq]
      rw [ih xs (i + 1) (by simpa using hlen) (fun p hp => hok p (by simp [hp])), hidx]

/-- **C3**: a tuple validator of `n` helpers rejects every array input
whose length differs from `n` with the exact message
`"tuple length <n>, got <actual>"` and no path segment; on an array of
matching length the positions are validated in ascending order and the
first failing position propagates its error with the index appended as
a path segment. -/
theorem tuple_spec (hs : List Check) (xs : List Jsv) :
    (xs.length ≠ hs.length →
      tupleHelper hs (.arr xs) =
        .error ⟨"tuple length " ++ toString hs.length ++ ", got " ++ toString xs.length, []⟩) ∧
    (∀ pre h post xpre x xpost e,
      hs = pre ++ h :: post → xs = xpre ++ x :: xpost →
      pre.length = xpre.length →
      xs.length = hs.length →
      (∀ p ∈ pre.zip xpre, p.1 p.2 = .ok ()) →
      h x = .error e →
      tupleHelper hs (.arr xs) = .error (e.errIn (.idx pre.length))) := by
  constructor
  · intro hne
    simp [tupleHelper, hne, leafErr, mkErrBuilder]
  · intro pre h post xpre x xpost e hhs hxs hlen heq hok hx
    subst hhs; subst hxs
    have hnn : ¬ ((xpre ++ x :: xpost).length ≠ (pre ++ h :: post).length) := by
      simpa using heq
    simp only [tupleHelper]
    rw [if_neg hnn]
    rw [tupleAux_skip pre xpre (h :: post) (x :: xpost) 0 hlen hok]
    simp [tupleAux, hx]

/-- Witness for C3: `tuple(DString, DNumber)` rejects a length-1 array
with the exact length message and no segment, and rejects
`["Alice", "x"]` at position 1 with the index appended. -/
theorem tuple_spec_witness :
    tupleHelper [atomic "string", atomic "number"] (.arr [.str "Alice"]) =
      .error ⟨"tuple length 2, got 1", []⟩ ∧
    tupleHelper [atomic "string", atomic "number"] (.arr [.str "Alice", .str "x"]) =
      .error ⟨"Expected number, got \"x\"", [.idx 1]⟩ :=
  ⟨(tuple_spec [atomic "string", atomic "number"] [.str "Alice"]).1 (by decide),
   (tuple_spec [atomic "string", atomic "number"] [.str "Alice", .str "x"]).2
     [atomic "string"] (atomic "number") [] [.str "Alice"] (.str "x") []
     (mkErrBuilder "Expected number, got \"x\"") rfl rfl rfl rfl
     (by intro p hp; fin_cases hp; rfl) rfl⟩

/-! ## C1: `parseWithDefault` on the failure path -/

/-- **C1** (counterexample): on the failure path `parseWithDefault` does
not return a fresh deep copy of the default.  Concretely:
`JSON.parse('"hello"')` decodes to the string `"hello"`, validation
against `DNumber` fails, and `parseWithDefault` returns exactly the
`defaultValue` reference it was handed — the same object, not a copy
(mutating the returned value would mutate `D`). -/
theorem parseWithDefault_same_object :
    resultIsErr (parse cDecode (atomic "number") "\"hello\"") = true ∧
    parseWithDefault cDecode (atomic "number") "\"hello\"" cDefault 1 = cDefault ∧
    ¬ isFreshDeepCopy
      (parseWithDefault cDecode (atomic "number") "\"hello\"" cDefault 1) cDefault := by
  refine ⟨rfl, rfl, ?_⟩
  intro hc
  exact hc.2 rfl

/-- **C1** (amended): whenever `H.parseWithDefault(text, D)` takes its
failure path (the text fails to decode or the decoded value fails `H`'s
validation), it returns the `defaultValue` argument itself — the very
same object, trivially deep-equal to `D` but aliased with it, not a
fresh copy. -/
theorem parseWithDefault_failure_returns_default (decode : String → Except String Jsv)
    (h : Check) (text : String) (d : ObjRef) (freshAddr : Nat) (e : String)
    (hfail : parse decode h text = .error e) :
    parseWithDefault decode h text d freshAddr = d := by
  simp [parseWithDefault, hfail]

/-- Witness for the amended C1 at a concrete malformed text: the decoder
rejects `"bad"`, and the returned value is the default reference
itself. -/
theorem parseWithDefault_failure_witness :
    parseWithDefault cDecode (atomic "number") "bad" cDefault 1 = cDefault :=
  parseWithDefault_failure_returns_default cDecode (atomic "number") "bad" cDefault 1
    "SyntaxError: Unexpected token" rfl

end TypeGuardMap
